import Mathlib

/-!
Verification of the `uni-text` Unicode text-processing module
(`src/uni_text.py`, class `UniText`).

Texts are embedded as `List Char` (Python strings are sequences of Unicode
scalar values, indexed by scalar value).  The Unicode character database
consulted by `unicodedata.category`, `str.isalpha` and `str.isdigit` is not
part of the repository; the operations are therefore parameterized by a
`UnicodeData` record of the three classification oracles, and a concrete
instance `ucd`, faithful on the characters used below, serves for evaluation
at concrete inputs.
-/

namespace UniText

/-- The character-classification oracles supplied by Python's runtime:
`catP c` models `unicodedata.category(c).startswith("P")`, `isAlpha c`
models `c.isalpha()`, and `isDigit c` models `c.isdigit()`. -/
structure UnicodeData where
  catP : Char → Bool
  isAlpha : Char → Bool
  isDigit : Char → Bool

/-- Code points of the ASCII characters whose Unicode general category starts
with "P", plus the non-ASCII punctuation characters used in this development
(U+2026 HORIZONTAL ELLIPSIS, U+3002 IDEOGRAPHIC FULL STOP, U+FF01, U+FF0C,
U+FF1B, U+FF1F fullwidth marks, all category Po). -/
def ucdPunctList : List Nat :=
  [0x21, 0x22, 0x23, 0x25, 0x26, 0x27, 0x28, 0x29, 0x2A, 0x2C, 0x2D, 0x2E,
   0x2F, 0x3A, 0x3B, 0x3F, 0x40, 0x5B, 0x5C, 0x5D, 0x5F, 0x7B, 0x7D,
   0x2026, 0x3002, 0xFF01, 0xFF0C, 0xFF1B, 0xFF1F]

/-- Modelled from the spec: the Unicode character database behind
`unicodedata.category` / `str.isalpha` / `str.isdigit` (not part of the
repository), restricted to the ASCII range plus the non-ASCII characters
appearing in concrete inputs below: U+00E9 is a letter, U+0665 is a decimal
digit, U+00A0 (no-break space, category Zs, a Unicode whitespace character)
is neither letter, digit nor punctuation.  Faithful to the real database on
this domain. -/
def ucd : UnicodeData where
  catP c := decide (c.toNat ∈ ucdPunctList)
  isAlpha c :=
    decide ((0x41 ≤ c.toNat ∧ c.toNat ≤ 0x5A) ∨ (0x61 ≤ c.toNat ∧ c.toNat ≤ 0x7A) ∨
      c.toNat = 0xE9)
  isDigit c := decide ((0x30 ≤ c.toNat ∧ c.toNat ≤ 0x39) ∨ c.toNat = 0x665)

/-- `UniText.is_punctuation` (source lines 66-82): false on the empty string
and on any string of more than one scalar value, otherwise the category test
on the single scalar value. -/
def is_punctuation (u : UnicodeData) (s : List Char) : Bool :=
  match s with
  | [c] => u.catP c
  | _ => false

/-- Models the Python membership test `ch in "sS"` (source line 117). -/
def mem_sS (c : Char) : Bool :=
  c.toNat = 115 || c.toNat = 83

/-- Models the Python membership test `ch in " \n\t"` (source lines 121, 133):
a literal three-character set, space / newline / tab. -/
def mem_space_nl_tab (c : Char) : Bool :=
  c.toNat = 32 || c.toNat = 10 || c.toNat = 9

/-- The per-character keep/drop decision of `UniText.remove_punctuations`
(source lines 107-153), for the character `c` at index `i` of `text`.
Code point 39 is the apostrophe, 46 the period, 47 the slash, 37 the percent
sign, 45 the hyphen. -/
def rpKeep (u : UnicodeData) (text : List Char) (i : Nat) (c : Char) : Bool :=
  if is_punctuation u [c] = false then true
  else if c.toNat = 39 then
    if 0 < i ∧ i < text.length - 1 then
      (u.isAlpha (text.getD (i - 1) c) && u.isAlpha (text.getD (i + 1) c)) ||
      (u.isAlpha (text.getD (i - 1) c) && mem_sS (text.getD (i + 1) c))
    else if 0 < i then
      u.isAlpha (text.getD (i - 1) c) &&
        (decide (i = text.length - 1) || mem_space_nl_tab (text.getD (i + 1) c))
    else false
  else if c.toNat = 46 then
    if 0 < i ∧ i < text.length - 1 then
      u.isDigit (text.getD (i - 1) c) && u.isDigit (text.getD (i + 1) c)
    else if 0 < i then
      u.isDigit (text.getD (i - 1) c) &&
        (decide (i = text.length - 1) || mem_space_nl_tab (text.getD (i + 1) c))
    else if i < text.length - 1 then
      u.isDigit (text.getD (i + 1) c)
    else false
  else if c.toNat = 47 then
    if 0 < i ∧ i < text.length - 1 then
      (u.isDigit (text.getD (i - 1) c) && u.isDigit (text.getD (i + 1) c)) ||
      (u.isAlpha (text.getD (i - 1) c) && u.isAlpha (text.getD (i + 1) c))
    else false
  else if c.toNat = 37 ∨ c.toNat = 45 then true
  else false

/-- `UniText.remove_punctuations` (source lines 85-155): every
non-punctuation character is kept, and each punctuation occurrence is kept
or dropped by `rpKeep` from its index and neighbors in the original text. -/
def remove_punctuations (u : UnicodeData) (text : List Char) : List Char :=
  (text.enum.filter (fun ic => rpKeep u text ic.1 ic.2)).map (fun ic => ic.2)

/-- The loop of `UniText.remove_consecutive_punctuations` (source lines
182-194): `prev` is the Python variable `prev_is_punc`; a punctuation
character is skipped when `prev` holds, otherwise the character is emitted
and `prev` becomes its own punctuation status. -/
def rcpGo (u : UnicodeData) (prev : Bool) : List Char → List Char
  | [] => []
  | c :: rest =>
    if is_punctuation u [c] && prev then rcpGo u prev rest
    else c :: rcpGo u (is_punctuation u [c]) rest

/-- `UniText.remove_consecutive_punctuations` (source lines 157-196):
the loop started with `prev_is_punc = False`. -/
def remove_consecutive_punctuations (u : UnicodeData) (text : List Char) : List Char :=
  rcpGo u false text

/-- Spec-side restatement of the collapser (§4.3 of the spec, quoted by the
claim): walk the text carrying the previous character of the ORIGINAL text;
drop a character iff it is punctuation and that previous original character
is punctuation too.  `p` is the previous original character. -/
def collapseSpecGo (u : UnicodeData) (p : Char) : List Char → List Char
  | [] => []
  | c :: rest =>
    if is_punctuation u [c] && is_punctuation u [p] then collapseSpecGo u c rest
    else c :: collapseSpecGo u c rest

/-- Spec-side collapser: the first character has no predecessor and always
survives; afterwards `collapseSpecGo` applies the drop rule. -/
def collapseSpec (u : UnicodeData) : List Char → List Char
  | [] => []
  | c :: rest => c :: collapseSpecGo u c rest

/-- `noAdjacentPunc u l = true` iff no two adjacent characters of `l` are
both punctuation according to `is_punctuation u`. -/
def noAdjacentPunc (u : UnicodeData) : List Char → Bool
  | a :: b :: l => (!(is_punctuation u [a] && is_punctuation u [b])) && noAdjacentPunc u (b :: l)
  | _ => true

/-- `UniText.is_cjk_character` (source lines 198-244): the sixteen-range
disjunction, verbatim from the source.  The Python argument is an `int`,
embedded as `Int`. -/
def is_cjk_character (n : Int) : Bool :=
  (0x4E00 ≤ n && n ≤ 0x9FFF)
  || (0x3400 ≤ n && n ≤ 0x4DBF)
  || (0x20000 ≤ n && n ≤ 0x2A6DF)
  || (0x2A700 ≤ n && n ≤ 0x2B73F)
  || (0x2B740 ≤ n && n ≤ 0x2B81F)
  || (0x2B820 ≤ n && n ≤ 0x2CEAF)
  || (0x2CEB0 ≤ n && n ≤ 0x2EBEF)
  || (0x30000 ≤ n && n ≤ 0x3134F)
  || (0x31350 ≤ n && n ≤ 0x323AF)
  || (0x2EBF0 ≤ n && n ≤ 0x2EE5F)
  || (0xF900 ≤ n && n ≤ 0xFAFF)
  || (0x2F800 ≤ n && n ≤ 0x2FA1F)
  || (0x3040 ≤ n && n ≤ 0x309F)
  || (0x30A0 ≤ n && n ≤ 0x30FF)
  || (0xAC00 ≤ n && n ≤ 0xD7AF)
  || (0x3100 ≤ n && n ≤ 0x312F)

/-- The sixteen inclusive CJK ranges exactly as the claim lists them. -/
def claimCJKRanges : List (Int × Int) :=
  [(0x4E00, 0x9FFF), (0x3400, 0x4DBF), (0x20000, 0x2A6DF), (0x2A700, 0x2B73F),
   (0x2B740, 0x2B81F), (0x2B820, 0x2CEAF), (0x2CEB0, 0x2EBEF), (0x30000, 0x3134F),
   (0x31350, 0x323AF), (0x2EBF0, 0x2EE5F), (0xF900, 0xFAFF), (0x2F800, 0x2FA1F),
   (0x3040, 0x309F), (0x30A0, 0x30FF), (0xAC00, 0xD7AF), (0x3100, 0x312F)]

/-- `UniText.SENTENCE_END_PUNCTUATIONS_ZH` (source lines 23-30), in source
order: 。 ？ ！ ； … …… (U+3002, U+FF1F, U+FF01, U+FF1B, U+2026, U+2026 twice). -/
def SENTENCE_END_PUNCTUATIONS_ZH : List (List Char) :=
  [[Char.ofNat 0x3002], [Char.ofNat 0xFF1F], [Char.ofNat 0xFF01], [Char.ofNat 0xFF1B],
   [Char.ofNat 0x2026], [Char.ofNat 0x2026, Char.ofNat 0x2026]]

/-- `UniText.SENTENCE_END_PUNCTUATIONS_EN` (source lines 33-40):
. ? ! ; … ... -/
def SENTENCE_END_PUNCTUATIONS_EN : List (List Char) :=
  [['.'], ['?'], ['!'], [';'], [Char.ofNat 0x2026], ['.', '.', '.']]

/-- `UniText.SENTENCE_END_PUNCTUATIONS_JA` (source lines 43-49):
。 ？ ！ ； …… (no single-character ellipsis). -/
def SENTENCE_END_PUNCTUATIONS_JA : List (List Char) :=
  [[Char.ofNat 0x3002], [Char.ofNat 0xFF1F], [Char.ofNat 0xFF01], [Char.ofNat 0xFF1B],
   [Char.ofNat 0x2026, Char.ofNat 0x2026]]

/-- `UniText.SENTENCE_END_PUNCTUATIONS_KO` (source lines 52-64):
. ! ? ; 。 ！ ？ ； … …… ... -/
def SENTENCE_END_PUNCTUATIONS_KO : List (List Char) :=
  [['.'], ['!'], ['?'], [';'], [Char.ofNat 0x3002], [Char.ofNat 0xFF01],
   [Char.ofNat 0xFF1F], [Char.ofNat 0xFF1B], [Char.ofNat 0x2026],
   [Char.ofNat 0x2026, Char.ofNat 0x2026], ['.', '.', '.']]

/-- `UniText._is_sentence_end_with_zh_punctuation` (source lines 246-271):
false on empty text, otherwise `text.endswith(punct)` for some member of the
set (the loop with early return is `List.any`). -/
def is_sentence_end_with_zh_punctuation (text : List Char) : Bool :=
  if text = [] then false
  else SENTENCE_END_PUNCTUATIONS_ZH.any (fun p => p.isSuffixOf text)

/-- `UniText._is_sentence_end_with_en_punctuation` (source lines 273-298). -/
def is_sentence_end_with_en_punctuation (text : List Char) : Bool :=
  if text = [] then false
  else SENTENCE_END_PUNCTUATIONS_EN.any (fun p => p.isSuffixOf text)

/-- `UniText._is_sentence_end_with_ja_punctuation` (source lines 300-325). -/
def is_sentence_end_with_ja_punctuation (text : List Char) : Bool :=
  if text = [] then false
  else SENTENCE_END_PUNCTUATIONS_JA.any (fun p => p.isSuffixOf text)

/-- `UniText._is_sentence_end_with_ko_punctuation` (source lines 327-356). -/
def is_sentence_end_with_ko_punctuation (text : List Char) : Bool :=
  if text = [] then false
  else SENTENCE_END_PUNCTUATIONS_KO.any (fun p => p.isSuffixOf text)

/-- Modelled from the spec: Python's `str.lower` per character
("case-insensitively normalized" language tags), here the ASCII case
mapping, which is what the four tag comparisons can observe for ASCII tags. -/
def pyLowerChar (c : Char) : Char :=
  if 0x41 ≤ c.toNat ∧ c.toNat ≤ 0x5A then Char.ofNat (c.toNat + 32) else c

/-- `lang.lower()` on a whole string. -/
def pyLower (s : List Char) : List Char :=
  s.map pyLowerChar

/-- The one error kind of the module: the `ValueError` of
`is_sentence_end_with_punctuation` (the spec's `InvalidArgument`). -/
inductive UniTextError where
  | invalidArgument
deriving DecidableEq

/-- `UniText.is_sentence_end_with_punctuation` (source lines 358-392):
empty text returns false BEFORE the language dispatch; then the lowercased
tag selects a per-language detector, and any other tag raises. -/
def is_sentence_end_with_punctuation (text lang : List Char) :
    Except UniTextError Bool :=
  if text = [] then Except.ok false
  else
    let l := pyLower lang
    if l = ['z', 'h'] then Except.ok (is_sentence_end_with_zh_punctuation text)
    else if l = ['e', 'n'] then Except.ok (is_sentence_end_with_en_punctuation text)
    else if l = ['j', 'a'] then Except.ok (is_sentence_end_with_ja_punctuation text)
    else if l = ['k', 'o'] then Except.ok (is_sentence_end_with_ko_punctuation text)
    else Except.error UniTextError.invalidArgument

/-- The recognized language tags, lowercased. -/
def recognizedTags : List (List Char) :=
  [['z', 'h'], ['e', 'n'], ['j', 'a'], ['k', 'o']]

/-- The sentence-end set of each language exactly as the claim lists it
(zh: 。 ？ ！ ； … ……; en: . ? ! ; … ...; ja: 。 ？ ！ ； ……;
ko: . ! ? ; 。 ！ ？ ； … …… ...). -/
def claimEndSet (tag : List Char) : List (List Char) :=
  if tag = ['z', 'h'] then
    [[Char.ofNat 0x3002], [Char.ofNat 0xFF1F], [Char.ofNat 0xFF01], [Char.ofNat 0xFF1B],
     [Char.ofNat 0x2026], [Char.ofNat 0x2026, Char.ofNat 0x2026]]
  else if tag = ['e', 'n'] then
    [['.'], ['?'], ['!'], [';'], [Char.ofNat 0x2026], ['.', '.', '.']]
  else if tag = ['j', 'a'] then
    [[Char.ofNat 0x3002], [Char.ofNat 0xFF1F], [Char.ofNat 0xFF01], [Char.ofNat 0xFF1B],
     [Char.ofNat 0x2026, Char.ofNat 0x2026]]
  else if tag = ['k', 'o'] then
    [['.'], ['!'], ['?'], [';'], [Char.ofNat 0x3002], [Char.ofNat 0xFF01],
     [Char.ofNat 0xFF1F], [Char.ofNat 0xFF1B], [Char.ofNat 0x2026],
     [Char.ofNat 0x2026, Char.ofNat 0x2026], ['.', '.', '.']]
  else []

/-- The apostrophe character, U+0027. -/
def apos : Char := Char.ofNat 39

/-- No-break space U+00A0, a Unicode whitespace character outside ASCII. -/
def nbsp : Char := Char.ofNat 0xA0

theorem rcpGo_eq_collapseSpecGo (u : UnicodeData) (l : List Char) :
    ∀ p : Char, rcpGo u (is_punctuation u [p]) l = collapseSpecGo u p l := by
  induction l with
  | nil => intro p; rfl
  | cons c rest ih =>
    intro p
    have hc := ih c
    cases h1 : is_punctuation u [c] <;> rw [h1] at hc
    · simp [rcpGo, collapseSpecGo, h1, hc]
    · cases h2 : is_punctuation u [p]
      · simp [rcpGo, collapseSpecGo, h1, h2, hc]
      · simpa [rcpGo, collapseSpecGo, h1, h2] using hc

theorem noAdjacentPunc_congrHead (u : UnicodeData) (a b : Char) (l : List Char)
    (h : is_punctuation u [a] = is_punctuation u [b]) :
    noAdjacentPunc u (a :: l) = noAdjacentPunc u (b :: l) := by
  cases l with
  | nil => rfl
  | cons c rest => simp [noAdjacentPunc, h]

theorem noAdjacentPunc_rcpGo (u : UnicodeData) (l : List Char) :
    ∀ p : Char, noAdjacentPunc u (p :: rcpGo u (is_punctuation u [p]) l) = true := by
  induction l with
  | nil => intro p; rfl
  | cons c rest ih =>
    intro p
    have hc := ih c
    cases h1 : is_punctuation u [c] <;> rw [h1] at hc
    · cases h2 : is_punctuation u [p] <;>
        simp [rcpGo, noAdjacentPunc, h1, h2, hc]
    · cases h2 : is_punctuation u [p]
      · simp [rcpGo, noAdjacentPunc, h1, h2, hc]
      · have hcongr := noAdjacentPunc_congrHead u p c (rcpGo u true rest) (by rw [h1, h2])
        simp only [rcpGo, h1, h2, Bool.and_true, if_pos]
        rw [hcongr]
        exact hc

theorem rcpGo_of_noAdjacentPunc (u : UnicodeData) (l : List Char) :
    ∀ p : Char, noAdjacentPunc u (p :: l) = true → rcpGo u (is_punctuation u [p]) l = l := by
  induction l with
  | nil => intro p _; rfl
  | cons c rest ih =>
    intro p h
    simp only [noAdjacentPunc, Bool.and_eq_true, Bool.not_eq_true'] at h
    obtain ⟨hpc, hrest⟩ := h
    cases h1 : is_punctuation u [c] <;> rw [h1] at hpc
    · have := ih c hrest
      rw [h1] at this
      simp [rcpGo, h1, this]
    · cases h2 : is_punctuation u [p] <;> rw [h2] at hpc
      · have := ih c hrest
        rw [h1] at this
        simp [rcpGo, h1, h2, this]
      · simp at hpc

theorem rcpGo_sublist (u : UnicodeData) (l : List Char) :
    ∀ b : Bool, List.Sublist (rcpGo u b l) l := by
  induction l with
  | nil => intro b; simp [rcpGo]
  | cons c rest ih =>
    intro b
    by_cases h : (is_punctuation u [c] && b) = true
    · simp only [rcpGo, h, if_pos]
      exact List.Sublist.cons c (ih b)
    · simp only [rcpGo, h, if_neg, Bool.false_eq_true, not_false_eq_true]
      exact List.Sublist.cons₂ c (ih (is_punctuation u [c]))

/-- C1: the advanced apostrophe rule is claimed to keep an apostrophe with an
alphabetic left neighbor when it is the last character or followed by
whitespace, with `remove_punctuations "workers' pay" = "workers' pay"`.  The
code keeps the end-of-text case but drops the interior
followed-by-whitespace case (the whitespace test of source line 121 sits in
a branch only reachable at the end of the text), so `"workers' pay"` becomes
`"workers pay"` while `"workers'"` alone is preserved. -/
theorem c1_eval :
    remove_punctuations ucd
        ['w', 'o', 'r', 'k', 'e', 'r', 's', apos, ' ', 'p', 'a', 'y'] =
      ['w', 'o', 'r', 'k', 'e', 'r', 's', ' ', 'p', 'a', 'y'] ∧
    remove_punctuations ucd ['w', 'o', 'r', 'k', 'e', 'r', 's', apos] =
      ['w', 'o', 'r', 'k', 'e', 'r', 's', apos] := by
  decide

/-- C2: the advanced decimal-point rule is claimed to keep a period with a
digit left neighbor that is followed by whitespace, e.g. in `"5. next"`.
The code keeps `"5."` at the end of the text but drops the interior
followed-by-whitespace case (the whitespace test of source line 133 sits in
a branch only reachable at the end of the text), so `"5. next"` becomes
`"5 next"` while `"5."` is preserved. -/
theorem c2_eval :
    remove_punctuations ucd ['5', '.', ' ', 'n', 'e', 'x', 't'] =
      ['5', ' ', 'n', 'e', 'x', 't'] ∧
    remove_punctuations ucd ['5', '.'] = ['5', '.'] := by
  decide

/-- C3 counterexample: the claim says the detector raises `InvalidArgument`
whenever the language tag is unrecognized, for every text including the
empty text; but with empty text and the unrecognized tag "fr" the code
returns false without raising, because the empty-text check precedes the
language dispatch. -/
theorem c3_counterexample :
    is_sentence_end_with_punctuation [] ['f', 'r'] = Except.ok false ∧
    pyLower ['f', 'r'] ∉ recognizedTags :=
  ⟨rfl, by decide⟩

/-- C3 (amended): `is_sentence_end_with_punctuation` raises `InvalidArgument`
iff the text is non-empty AND the case-insensitively normalized language tag
is not one of zh, en, ja, ko; for empty text it returns false regardless of
the tag. -/
theorem c3_amended (text lang : List Char) :
    is_sentence_end_with_punctuation text lang = Except.error UniTextError.invalidArgument ↔
      (text ≠ [] ∧ pyLower lang ∉ recognizedTags) := by
  simp only [is_sentence_end_with_punctuation, recognizedTags]
  split_ifs with h1 h2 h3 h4 h5 <;> simp_all

/-- C4: for every non-empty text and recognized language tag (matched
case-insensitively), the detector returns true exactly when the text ends
with one of the strings of that language's sentence-end set as listed by
the claim. -/
theorem c4_sentence_end (text lang : List Char) (h1 : text ≠ [])
    (h2 : pyLower lang ∈ recognizedTags) :
    (is_sentence_end_with_punctuation text lang = Except.ok true ↔
      ∃ p ∈ claimEndSet (pyLower lang), p.isSuffixOf text = true) := by
  simp only [recognizedTags, List.mem_cons, List.not_mem_nil, or_false] at h2
  rcases h2 with h | h | h | h <;>
    simp [is_sentence_end_with_punctuation, h1, h, claimEndSet,
      is_sentence_end_with_zh_punctuation, is_sentence_end_with_en_punctuation,
      is_sentence_end_with_ja_punctuation, is_sentence_end_with_ko_punctuation,
      SENTENCE_END_PUNCTUATIONS_ZH, SENTENCE_END_PUNCTUATIONS_EN,
      SENTENCE_END_PUNCTUATIONS_JA, SENTENCE_END_PUNCTUATIONS_KO,
      List.any_eq_true]

/-- C4 witness: the tag "KO" is matched case-insensitively and `"x."` ends
with the Korean sentence-end string ".". -/
theorem c4_sentence_end_witness :
    (['x', '.'] : List Char) ≠ [] ∧ pyLower ['K', 'O'] ∈ recognizedTags ∧
    (is_sentence_end_with_punctuation ['x', '.'] ['K', 'O'] = Except.ok true ↔
      ∃ p ∈ claimEndSet (pyLower ['K', 'O']), p.isSuffixOf ['x', '.'] = true) :=
  ⟨by decide, by decide, c4_sentence_end ['x', '.'] ['K', 'O'] (by decide) (by decide)⟩

/-- C5: `remove_consecutive_punctuations` equals the spec-side collapser that
drops exactly the characters that are punctuation and whose immediately
preceding character in the original text is also punctuation (the first mark
of every punctuation run survives, the identity of the marks is
irrelevant). -/
theorem c5_collapse_eq_spec (u : UnicodeData) (t : List Char) :
    remove_consecutive_punctuations u t = collapseSpec u t := by
  cases t with
  | nil => rfl
  | cons c rest =>
    simpa [remove_consecutive_punctuations, collapseSpec, rcpGo] using
      rcpGo_eq_collapseSpecGo u rest c

/-- C6 counterexample: the claim asserts `is_cjk_character` is false
immediately outside each end of each range, but 0x2B740 — one past the end
0x2B73F of the Extension C range — is the start of the Extension D range and
the function returns true there. -/
theorem c6_counterexample :
    is_cjk_character 0x2B740 = true ∧ (0x2B740 : Int) = 0x2B73F + 1 := by
  decide

/-- C6 (amended): `is_cjk_character n` is true iff `n` lies in one of the 16
inclusive ranges listed by the claim; code points immediately outside a
range's ends are therefore false only when they fall in none of the listed
ranges (several ranges are mutually adjacent). -/
theorem c6_cjk_ranges (n : Int) :
    is_cjk_character n = true ↔ ∃ p ∈ claimCJKRanges, p.1 ≤ n ∧ n ≤ p.2 := by
  simp only [is_cjk_character, claimCJKRanges, Bool.or_eq_true, Bool.and_eq_true,
    decide_eq_true_eq, List.mem_cons, List.not_mem_nil, or_false,
    exists_eq_or_imp, exists_eq_left]
  omega

/-- C7: `is_punctuation` is false on the empty string and on any input of
more than one scalar value, and on a single scalar value it is true iff the
category oracle (the Unicode general category starting with "P") holds. -/
theorem c7_is_punctuation (u : UnicodeData) (s : List Char) :
    is_punctuation u s = true ↔ ∃ c, s = [c] ∧ u.catP c = true := by
  cases s with
  | nil => simp [is_punctuation]
  | cons a t =>
    cases t with
    | nil => simp [is_punctuation]
    | cons b t2 => simp [is_punctuation]

/-- C8: `remove_consecutive_punctuations` is idempotent. -/
theorem c8_collapse_idempotent (u : UnicodeData) (t : List Char) :
    remove_consecutive_punctuations u (remove_consecutive_punctuations u t) =
      remove_consecutive_punctuations u t := by
  cases t with
  | nil => rfl
  | cons c rest =>
    have e : remove_consecutive_punctuations u (c :: rest) =
        c :: rcpGo u (is_punctuation u [c]) rest := by
      simp [remove_consecutive_punctuations, rcpGo]
    rw [e]
    have e2 : remove_consecutive_punctuations u (c :: rcpGo u (is_punctuation u [c]) rest) =
        c :: rcpGo u (is_punctuation u [c]) (rcpGo u (is_punctuation u [c]) rest) := by
      simp [remove_consecutive_punctuations, rcpGo]
    rw [e2, rcpGo_of_noAdjacentPunc u _ c (noAdjacentPunc_rcpGo u rest c)]

/-- C9 counterexample: the claim says the whitespace neighbor test is the
Unicode whitespace property, so an apostrophe with an alphabetic left
neighbor followed by U+00A0 (no-break space) would be kept; the code drops
it — its whitespace test is the literal ASCII set space/newline/tab, and it
sits in a branch only reachable at the end of the text. -/
theorem c9_counterexample :
    remove_punctuations ucd ['a', apos, nbsp] = ['a', nbsp] := by
  decide

/-- C9 (amended): the alphabetic and digit neighbor tests are Unicode-aware
(U+00E9 counts as a letter in a contraction, U+0665 counts as a digit around
a decimal point), but the whitespace test is literal membership in the ASCII
set space/newline/tab in an end-of-text-only branch, so an apostrophe or
period followed by any whitespace — U+00A0 or even an ASCII space — in the
middle of the text is dropped. -/
theorem c9_amended :
    remove_punctuations ucd ['n', apos, Char.ofNat 0xE9] =
      ['n', apos, Char.ofNat 0xE9] ∧
    remove_punctuations ucd [Char.ofNat 0x665, '.', Char.ofNat 0x665] =
      [Char.ofNat 0x665, '.', Char.ofNat 0x665] ∧
    remove_punctuations ucd ['5', '.', nbsp] = ['5', nbsp] ∧
    remove_punctuations ucd ['a', apos, ' '] = ['a', ' '] := by
  decide

/-- C10: the output of `remove_consecutive_punctuations` has no two adjacent
characters that are both punctuation, and it is a subsequence of the input
(characters unchanged, in their original order). -/
theorem c10_collapse_invariants (u : UnicodeData) (t : List Char) :
    noAdjacentPunc u (remove_consecutive_punctuations u t) = true ∧
    List.Sublist (remove_consecutive_punctuations u t) t := by
  constructor
  · cases t with
    | nil => rfl
    | cons c rest =>
      have e : remove_consecutive_punctuations u (c :: rest) =
          c :: rcpGo u (is_punctuation u [c]) rest := by
        simp [remove_consecutive_punctuations, rcpGo]
      rw [e]
      exact noAdjacentPunc_rcpGo u rest c
  · exact rcpGo_sublist u t false

end UniText
